import Mathlib

/-!
Shallow embedding of the WorkTimeCounter repository (src/server.js and
src/public/app.js) and verification of the frozen claims.

Modelling conventions:
* JavaScript numbers are modelled as rationals (`ℚ`).  A JS number that is
  `NaN` or `±Infinity` is modelled as `none` of `Option ℚ`; every code path
  under scrutiny only distinguishes "finite" from "not finite"
  (`Number.isFinite`, `toNumber` fallbacks), never `NaN` from `Infinity`.
* JSON/JS values reaching the functions are modelled by `JsVal`
  (absent field = `undefined`).
* `Number(string)` and `parseFloat(string)` are modelled on their decimal
  fragment (sign, digits, decimal point, exponent, `Infinity`); exotic
  forms such as hex literals are treated as unparseable.  No claim input
  uses them.
* JS `Date` values are modelled timezone-free (UTC semantics): a calendar
  date triple with pure calendar arithmetic, `toISOString().slice(0,10)`
  becoming zero-padded formatting.  `new Date(string)` is modelled on
  ISO `YYYY-MM-DD` strings; other formats are treated as invalid dates.
* String trimming, splitting and membership are implemented structurally
  on the character list so that every definition evaluates inside proofs.
-/

attribute [local semireducible] Rat.add Rat.mul Rat.inv Rat.sub Rat.ofScientific

set_option maxRecDepth 40000

namespace WTC

/-- Model of a JSON/JS value as it reaches the server and client code.
`undefined` models an absent field (`undefined`). -/
inductive JsVal where
  | undefined
  | null
  | bool (b : Bool)
  | num (q : ℚ)
  | str (s : String)
deriving DecidableEq

/-- JS truthiness of a `JsVal` (`NaN`-free model: JSON carries no `NaN`). -/
def truthy : JsVal → Bool
  | .undefined => false
  | .null => false
  | .bool b => b
  | .num q => decide (q ≠ 0)
  | .str s => decide (s ≠ "")

/-- Characters removed by JS `String.prototype.trim`. -/
def jsWhitespace (c : Char) : Bool := c.isWhitespace

/-- Trim whitespace from both ends of a character list. -/
def trimList (cs : List Char) : List Char :=
  ((cs.dropWhile jsWhitespace).reverse.dropWhile jsWhitespace).reverse

/-- Model of JS `String.prototype.trim`. -/
def jsTrim (s : String) : String := String.mk (trimList s.toList)

/-- Split a character list at every occurrence of `c` (model of JS
`String.prototype.split` with a single-character separator). -/
def splitCharList (c : Char) : List Char → List (List Char)
  | [] => [[]]
  | a :: rest =>
      let r := splitCharList c rest
      if a = c then [] :: r
      else (a :: r.headD []) :: r.tail

/-- Model of JS `s.split(c)` for a single-character separator. -/
def jsSplit (s : String) (c : Char) : List String :=
  (splitCharList c s.toList).map String.mk

/-- Model of JS `s.includes(c)` for a single character. -/
def containsChar (s : String) (c : Char) : Bool := s.toList.contains c

/-- Model of JS `s.slice(0, n)`. -/
def strTake (s : String) (n : ℕ) : String := String.mk (s.toList.take n)

/-- Numeric value of a digit list, most significant first. -/
def natOfDigits (ds : List Char) : ℕ :=
  ds.foldl (fun a c => 10 * a + (c.toNat - 48)) 0

/-- Core of JS `Number(string)` after sign handling: the whole character list
must be a decimal literal `digits [. digits] [e[±]digits]`; returns `none`
for `NaN`. -/
def parseDecimalCore (cs : List Char) : Option ℚ :=
  let ip := cs.takeWhile Char.isDigit
  let rest1 := cs.dropWhile Char.isDigit
  let fp :=
    match rest1 with
    | '.' :: r => r.takeWhile Char.isDigit
    | _ => []
  let rest2 :=
    match rest1 with
    | '.' :: r => r.dropWhile Char.isDigit
    | _ => rest1
  if ip.isEmpty ∧ fp.isEmpty then none
  else
    let mant : ℚ := (natOfDigits (ip ++ fp) : ℚ) / (10 : ℚ) ^ fp.length
    match rest2 with
    | [] => some mant
    | c :: r =>
      if c = 'e' ∨ c = 'E' then
        let esign : ℤ := match r with | '-' :: _ => -1 | _ => 1
        let r2 := match r with | '-' :: rr => rr | '+' :: rr => rr | _ => r
        let ed := r2.takeWhile Char.isDigit
        let r3 := r2.dropWhile Char.isDigit
        if ed.isEmpty ∨ r3 ≠ [] then none
        else some (mant * (10 : ℚ) ^ (esign * (natOfDigits ed : ℤ)))
      else none

/-- Model of JS `Number(string)` restricted to finite results: whitespace is
trimmed, the empty string is `0`, `Infinity` and unparseable strings give
`none` (non-finite). -/
def jsNumberOfString (s : String) : Option ℚ :=
  match (jsTrim s).toList with
  | [] => some 0
  | '-' :: cs =>
      if cs = ['I', 'n', 'f', 'i', 'n', 'i', 't', 'y'] then none
      else (parseDecimalCore cs).map (fun q => -q)
  | '+' :: cs =>
      if cs = ['I', 'n', 'f', 'i', 'n', 'i', 't', 'y'] then none
      else parseDecimalCore cs
  | cs =>
      if cs = ['I', 'n', 'f', 'i', 'n', 'i', 't', 'y'] then none
      else parseDecimalCore cs

/-- Core of JS `parseFloat` after sign handling: longest valid numeric
prefix; an incomplete exponent part is ignored rather than failing. -/
def parseFloatCore (cs : List Char) : Option ℚ :=
  let ip := cs.takeWhile Char.isDigit
  let rest1 := cs.dropWhile Char.isDigit
  let fp :=
    match rest1 with
    | '.' :: r => r.takeWhile Char.isDigit
    | _ => []
  let rest2 :=
    match rest1 with
    | '.' :: r => r.dropWhile Char.isDigit
    | _ => rest1
  if ip.isEmpty ∧ fp.isEmpty then none
  else
    let mant : ℚ := (natOfDigits (ip ++ fp) : ℚ) / (10 : ℚ) ^ fp.length
    match rest2 with
    | [] => some mant
    | c :: r =>
      if c = 'e' ∨ c = 'E' then
        let esign : ℤ := match r with | '-' :: _ => -1 | _ => 1
        let r2 := match r with | '-' :: rr => rr | '+' :: rr => rr | _ => r
        let ed := r2.takeWhile Char.isDigit
        if ed.isEmpty then some mant
        else some (mant * (10 : ℚ) ^ (esign * (natOfDigits ed : ℤ)))
      else some mant

/-- Model of JS `parseFloat(string)` restricted to finite results (an
`Infinity` prefix yields a non-finite number, hence `none`). -/
def jsParseFloat (s : String) : Option ℚ :=
  match (jsTrim s).toList with
  | '-' :: 'I' :: 'n' :: 'f' :: 'i' :: 'n' :: 'i' :: 't' :: 'y' :: _ => none
  | '+' :: 'I' :: 'n' :: 'f' :: 'i' :: 'n' :: 'i' :: 't' :: 'y' :: _ => none
  | 'I' :: 'n' :: 'f' :: 'i' :: 'n' :: 'i' :: 't' :: 'y' :: _ => none
  | '-' :: cs => (parseFloatCore cs).map (fun q => -q)
  | '+' :: cs => parseFloatCore cs
  | cs => parseFloatCore cs

/-- Model of JS `Number(value)` on `JsVal`, `none` for a non-finite result. -/
def jsToNumber : JsVal → Option ℚ
  | .undefined => none
  | .null => some 0
  | .bool b => some (if b then 1 else 0)
  | .num q => some q
  | .str s => jsNumberOfString s

/-- server.js `toNumber`: `Number(value)` with a fallback when not finite. -/
def toNumber (value : JsVal) (fallback : ℚ) : ℚ :=
  (jsToNumber value).getD fallback

/-- server.js / app.js `cleanText`: `(value ?? '').toString().trim()`.
JS number-to-string formatting is modelled by Lean's rational printer; no
claim exercises `cleanText` on a number. -/
def cleanText : JsVal → String
  | .undefined => ""
  | .null => ""
  | .bool b => if b then "true" else "false"
  | .num q => jsTrim (toString q)
  | .str s => jsTrim s

/-- Kernel-evaluable floor of a rational (`⌊x⌋`, see `jsFloor_eq_floor`). -/
def jsFloor (x : ℚ) : ℤ := x.num / x.den

/-- server.js / app.js `round2`: `Math.round(Number(value || 0) * 100) / 100`.
JS `Math.round x = ⌊x + 1/2⌋` (ties toward `+∞`); `value || 0` is the
identity on finite numbers (`0 || 0 = 0`). -/
def round2 (x : ℚ) : ℚ :=
  ((jsFloor (x * 100 + 1 / 2) : ℤ) : ℚ) / 100

/-- Shared colon branch of server.js `parseHoursInput` and app.js
`parseHours`: `const [h, m] = trimmed.split(':').map(Number)` followed by
`Number.isFinite(h) && Number.isFinite(m) && h >= 0 && m >= 0 && m < 60`.
A one-element split leaves `m = undefined`, which is not finite. -/
def colonHours (trimmed : String) : Option ℚ :=
  match (jsSplit trimmed ':').map jsNumberOfString with
  | h? :: m? :: _ =>
    match h?, m? with
    | some h, some m =>
        if 0 ≤ h ∧ 0 ≤ m ∧ m < 60 then some (round2 (h + m / 60)) else none
    | _, _ => none
  | _ => none

/-- server.js `parseHoursInput` (lines 69-82). -/
def parseHoursInput (value : JsVal) : Option ℚ :=
  match value with
  | .str s =>
      let trimmed := jsTrim s
      if containsChar trimmed ':' then colonHours trimmed
      else some (round2 (toNumber (.str trimmed) 0))
  | v => some (round2 (toNumber v 0))

/-- app.js `parseNumber`: `parseFloat(value)`, `null` when not finite.
`parseFloat` coerces its argument to a string; for non-string non-number
values (`undefined`, `null`, booleans) that string is not numeric. -/
def parseNumber (value : JsVal) : Option ℚ :=
  match value with
  | .num q => some q
  | .str s => jsParseFloat s
  | _ => none

/-- app.js `parseHours` (lines 67-82). -/
def parseHours (value : JsVal) : Option ℚ :=
  match value with
  | .str s =>
      let trimmed := jsTrim s
      if containsChar trimmed ':' then colonHours trimmed
      else (parseNumber (.str trimmed)).map round2
  | v => (parseNumber v).map round2

/-- A calendar date in the timezone-free model of a JS `Date`. -/
structure Date where
  year : ℕ
  month : ℕ
  day : ℕ
deriving DecidableEq

/-- Gregorian leap-year rule, as used by JS `Date`. -/
def isLeapYear (y : ℕ) : Bool :=
  y % 4 == 0 && (y % 100 != 0 || y % 400 == 0)

/-- Number of days of month `m` (1-12) in year `y`; models the JS idiom
`new Date(year, month, 0).getDate()`. -/
def daysInMonth (y m : ℕ) : ℕ :=
  match m with
  | 1 => 31
  | 2 => if isLeapYear y then 29 else 28
  | 3 => 31
  | 4 => 30
  | 5 => 31
  | 6 => 30
  | 7 => 31
  | 8 => 31
  | 9 => 30
  | 10 => 31
  | 11 => 30
  | 12 => 31
  | _ => 0

/-- Calendar successor of a date. -/
def nextDay (d : Date) : Date :=
  if d.day < daysInMonth d.year d.month then ⟨d.year, d.month, d.day + 1⟩
  else if d.month < 12 then ⟨d.year, d.month + 1, 1⟩
  else ⟨d.year + 1, 1, 1⟩

/-- Calendar-date addition of `n` days; models the JS idiom
`date.setDate(date.getDate() + n)` for `n ≥ 0`. -/
def addDays (d : Date) : ℕ → Date
  | 0 => d
  | n + 1 => nextDay (addDays d n)

/-- Days contributed by the months before `m` in year `y`. -/
def daysBeforeMonth (y m : ℕ) : ℕ :=
  ((List.range (m - 1)).map (fun i => daysInMonth y (i + 1))).foldl (· + ·) 0

/-- Rata-die number of a date (0001-01-01 has number 1). -/
def rataDie (d : Date) : ℕ :=
  365 * (d.year - 1) + (d.year - 1) / 4 - (d.year - 1) / 100 + (d.year - 1) / 400 +
    daysBeforeMonth d.year d.month + d.day

/-- Day of week, 0 = Sunday .. 6 = Saturday; models JS `Date#getDay` in the
timezone-free model (0001-01-01 proleptic Gregorian is a Monday). -/
def dayOfWeek (d : Date) : ℕ := rataDie d % 7

/-- Two-digit zero padding, as in `toISOString` month/day fields. -/
def pad2 (n : ℕ) : String := if n < 10 then "0" ++ toString n else toString n

/-- Four-digit zero padding, as in `toISOString` year field. -/
def pad4 (n : ℕ) : String :=
  if n < 10 then "000" ++ toString n
  else if n < 100 then "00" ++ toString n
  else if n < 1000 then "0" ++ toString n
  else toString n

/-- app.js `dateKey`: `date.toISOString().slice(0, 10)` in the
timezone-free model. -/
def dateKey (d : Date) : String :=
  pad4 d.year ++ "-" ++ pad2 d.month ++ "-" ++ pad2 d.day

/-- Model of `new Date(string)` on ISO `YYYY-MM-DD` calendar-date strings;
`none` models an `Invalid Date`.  Other syntaxes accepted by some JS engines
are outside the model and treated as invalid. -/
def parseDate (s : String) : Option Date :=
  match s.toList with
  | [y1, y2, y3, y4, c1, m1, m2, c2, d1, d2] =>
      if c1 = '-' ∧ c2 = '-' ∧ y1.isDigit ∧ y2.isDigit ∧ y3.isDigit ∧ y4.isDigit ∧
          m1.isDigit ∧ m2.isDigit ∧ d1.isDigit ∧ d2.isDigit then
        let y := natOfDigits [y1, y2, y3, y4]
        let m := natOfDigits [m1, m2]
        let d := natOfDigits [d1, d2]
        if 1 ≤ m ∧ m ≤ 12 ∧ 1 ≤ d ∧ d ≤ daysInMonth y m then some ⟨y, m, d⟩ else none
      else none
  | _ => none

/-- app.js `computeEaster` (lines 150-166), the anonymous Gregorian Easter
algorithm.  JS computes `h + l - 7 * m + 114` and with `Math.floor`; here the
subtractions are reordered so that truncated `ℕ` subtraction never fires:
`b ≥ f`, `19a + b + 15 ≥ d + g` (as `d + g ≤ b/4 + (b+1)/3 + 1`),
`32 + 2e + 2i ≥ h + k` (as `h ≤ 29`, `k ≤ 3`) and `h + l + 114 ≥ 7m`
(as `m ≤ 1`), so each reordered expression equals the JS value. -/
def computeEaster (year : ℕ) : Date :=
  let a := year % 19
  let b := year / 100
  let c := year % 100
  let d := b / 4
  let e := b % 4
  let f := (b + 8) / 25
  let g := (b - f + 1) / 3
  let h := (19 * a + b + 15 - d - g) % 30
  let i := c / 4
  let k := c % 4
  let l := (32 + 2 * e + 2 * i - h - k) % 7
  let m := (a + 11 * h + 22 * l) / 451
  let n := h + l + 114 - 7 * m
  ⟨year, n / 31, n % 31 + 1⟩

/-- Modelled from the spec: "the standard Gregorian Easter algorithm
(Gauss's congruence method)", with its two exception rules, used only to
compare against `computeEaster`. -/
def gaussEaster (y : ℕ) : Date :=
  let a := y % 19
  let b := y % 4
  let c := y % 7
  let k := y / 100
  let p := (13 + 8 * k) / 25
  let q := k / 4
  let mm := (15 + k - p - q) % 30
  let nn := (4 + k - q) % 7
  let d := (19 * a + mm) % 30
  let e := (2 * b + 4 * c + 6 * d + nn) % 7
  if d = 29 ∧ e = 6 then ⟨y, 4, 19⟩
  else if d = 28 ∧ e = 6 ∧ (11 * mm + 11) % 30 < 19 then ⟨y, 4, 18⟩
  else if 22 + d + e ≤ 31 then ⟨y, 3, 22 + d + e⟩
  else ⟨y, 4, d + e - 9⟩

/-- app.js `polishHolidays` (lines 172-196).  The fixed entries use the JS
template literal with the bare year (`toString year`); the movable entries
go through `dateKey`. -/
def polishHolidays (year : ℕ) : List String :=
  let fixed : List String := [
    toString year ++ "-01-01",
    toString year ++ "-01-06",
    toString year ++ "-05-01",
    toString year ++ "-05-03",
    toString year ++ "-08-15",
    toString year ++ "-11-01",
    toString year ++ "-11-11",
    toString year ++ "-12-24",
    toString year ++ "-12-25",
    toString year ++ "-12-26"]
  let easterSunday := computeEaster year
  let easterMonday := addDays easterSunday 1
  let corpusChristi := addDays easterSunday 60
  fixed ++ [dateKey easterMonday, dateKey corpusChristi]

/-- app.js `workingDaysInMonth` (lines 198-211). -/
def workingDaysInMonth (year month : ℕ) : ℕ :=
  let holidays := polishHolidays year
  let dim := daysInMonth year month
  (List.range' 1 dim).foldl (fun count day =>
    let d : Date := ⟨year, month, day⟩
    let dow := dayOfWeek d
    let key := dateKey d
    if dow = 0 ∨ dow = 6 then count
    else if holidays.contains key then count
    else count + 1) 0

/-- app.js `sumEntriesForMonth` (lines 134-148).  The ledger is a list of
`(date string, hours)` pairs; stored hours are numbers, so the JS guard
`Number(hours) || 0` is the identity. -/
def sumEntriesForMonth (entries : List (String × ℚ)) (refDate : String) : Option ℚ :=
  if refDate = "" then none
  else
    match parseDate refDate with
    | none => none
    | some target =>
        some (round2 (entries.foldl (fun total e =>
          match parseDate e.1 with
          | some d => if d.year = target.year ∧ d.month = target.month then total + e.2 else total
          | none => total) 0))

/-- Model of the regex test `/^\d{4}-\d{2}$/.test(month)` of the
`DELETE /api/month` handler. -/
def matchesYYYYMM (s : String) : Bool :=
  match s.toList with
  | [a, b, c, d, e, f, g] =>
      a.isDigit && b.isDigit && c.isDigit && d.isDigit && e = '-' && f.isDigit && g.isDigit
  | _ => false

/-- First component of `month.split('-').map(Number)` for a string matching
`YYYY-MM` (the four leading digits). -/
def strYear (s : String) : ℕ := natOfDigits (s.toList.take 4)

/-- Second component of `month.split('-').map(Number)` for a string matching
`YYYY-MM` (the two trailing digits). -/
def strMon (s : String) : ℕ := natOfDigits (s.toList.drop 5)

/-- server.js `DELETE /api/month` handler core (lines 341-356): `none`
models the 400 rejection, which leaves the stored entries untouched;
`some` carries the entries remaining after the month is cleared. -/
def clearMonth (entries : List (String × ℚ)) (month : String) : Option (List (String × ℚ)) :=
  if matchesYYYYMM month then
    let year := strYear month
    let mon := strMon month
    some (entries.filter (fun e =>
      match parseDate e.1 with
      | some d => !(d.year == year && d.month == mon)
      | none => true))
  else none

/-- Profile defaults (server.js `DEFAULT_DATA.profile.defaults` shape);
`hourlyRate` is nullable (`null` by default), hence optional. -/
structure Defaults where
  hourlyRate : Option ℚ
  vatPercent : ℚ
  currency : String
  invoicePlace : String
  itemDescription : String
  itemUnit : String
  dueDays : ℚ
deriving DecidableEq

/-- The profile as consumed by `normalizeInvoice`.  Only the `defaults`
section feeds any claim; the seller snapshot is presentation-only. -/
structure Profile where
  defaults : Defaults
deriving DecidableEq

/-- The raw `body.extra` object: both fields are arbitrary JSON values. -/
structure RawExtra where
  desc : JsVal
  net : JsVal
deriving DecidableEq

/-- Raw invoice input (the request body) restricted to the fields that feed
the money, extra, manual-override, period and currency outputs. -/
structure RawInvoice where
  issueDate : JsVal
  saleDate : JsVal
  dueDays : JsVal
  vatPercent : JsVal
  hours : JsVal
  rate : JsVal
  manualNet : JsVal
  extra : Option RawExtra
  currency : JsVal
deriving DecidableEq

/-- The stored extra line of a normalized invoice. -/
structure ExtraLine where
  desc : String
  net : ℚ
deriving DecidableEq

/-- The normalized invoice record restricted to the fields any claim
references.  Identity (`id`, `invoiceNumber`), party snapshots (`seller`,
`buyer`), `item`, `place`, `dueDate`, `month`, `year` and `createdAt` are
presentation fields that do not feed the fields below and are omitted. -/
structure Invoice where
  issueDate : String
  saleDate : String
  dueDays : ℚ
  vatPercent : ℚ
  rate : ℚ
  hours : ℚ
  net : ℚ
  totalNet : ℚ
  vatAmount : ℚ
  gross : ℚ
  extra : Option ExtraLine
  manualNet : Option ℚ
  currency : String
deriving DecidableEq

/-- The `body.extra?.net` access (an absent `extra` gives `undefined`). -/
def extraNetInput (body : RawInvoice) : JsVal :=
  match body.extra with
  | some e => e.net
  | none => .undefined

/-- The `body.extra?.desc` access (an absent `extra` gives `undefined`). -/
def extraDescInput (body : RawInvoice) : JsVal :=
  match body.extra with
  | some e => e.desc
  | none => .undefined

/-- server.js `normalizeInvoice` (lines 183-242) on the fields above.
`nowIso` stands for `new Date().toISOString()`. -/
def normalizeInvoice (body : RawInvoice) (profile : Profile) (nowIso : String) : Invoice :=
  let defaults := profile.defaults
  let issueDate := if cleanText body.issueDate ≠ "" then cleanText body.issueDate else strTake nowIso 10
  let saleDate := if cleanText body.saleDate ≠ "" then cleanText body.saleDate else issueDate
  let dueDays := if body.dueDays ≠ .undefined then toNumber body.dueDays defaults.dueDays else defaults.dueDays
  let vatPercent :=
    if body.vatPercent ≠ .undefined then toNumber body.vatPercent defaults.vatPercent
    else defaults.vatPercent
  let hoursVal := parseHoursInput body.hours
  let hours := match hoursVal with | none => 0 | some h => h
  let rate := toNumber body.rate (defaults.hourlyRate.getD 0)
  let baseNet := round2 (hours * rate)
  let extraNet := round2 (toNumber (extraNetInput body) 0)
  let manualNet : Option ℚ :=
    if body.manualNet = .num 0 ∨ truthy body.manualNet = true
    then some (toNumber body.manualNet baseNet) else none
  let netValue := match manualNet with | some mn => round2 mn | none => baseNet
  let totalNet :=
    match manualNet with
    | some mn => round2 (mn + extraNet)
    | none => round2 (baseNet + extraNet)
  let vatAmount := round2 (totalNet * (vatPercent / 100))
  let gross := round2 (totalNet + vatAmount)
  let extraDesc := cleanText (extraDescInput body)
  { issueDate := issueDate
    saleDate := saleDate
    dueDays := dueDays
    vatPercent := vatPercent
    rate := rate
    hours := hours
    net := netValue
    totalNet := totalNet
    vatAmount := vatAmount
    gross := gross
    extra := if extraNet ≠ 0 ∧ extraDesc ≠ "" then some ⟨extraDesc, extraNet⟩ else none
    manualNet := manualNet
    currency := if cleanText body.currency ≠ "" then cleanText body.currency else defaults.currency }

/-- The default profile of the repository (`DEFAULT_DATA.profile`). -/
def defaultProfile : Profile :=
  { defaults :=
    { hourlyRate := none
      vatPercent := 23
      currency := "USD"
      invoicePlace := ""
      itemDescription := "Consulting services"
      itemUnit := "h"
      dueDays := 14 } }

/-- A raw invoice body with every field absent. -/
def emptyBody : RawInvoice :=
  { issueDate := .undefined
    saleDate := .undefined
    dueDays := .undefined
    vatPercent := .undefined
    hours := .undefined
    rate := .undefined
    manualNet := .undefined
    extra := none
    currency := .undefined }

/-- Specification form of the colon branch: the first two colon-separated
parts must parse (via `Number`) to finite values `h ≥ 0`, `m` with
`0 ≤ m < 60`, integral or not; the result is then `round2 (h + m/60)`. -/
def colonSpec (p1 p2 : String) : Option ℚ :=
  match jsNumberOfString p1, jsNumberOfString p2 with
  | some h, some m =>
      if 0 ≤ h ∧ 0 ≤ m ∧ m < 60 then some (round2 (h + m / 60)) else none
  | _, _ => none

/-- The base net of the claims: `round2(hours * rate)` with hours from the
hours parser (unparseable treated as 0) and rate defaulting to the profile
hourly rate or 0. -/
def claimBaseNet (body : RawInvoice) (profile : Profile) : ℚ :=
  round2 ((parseHoursInput body.hours).getD 0 *
    toNumber body.rate (profile.defaults.hourlyRate.getD 0))

/-- Claim C1 exactly as frozen: the money fields of the returned invoice
satisfy the stated equations, where the extra-line net is `round2(extra.net)`
only when an extra description is present and `0` otherwise, and a supplied
numeric `manualNet` (including literal 0) replaces the base net. -/
def claimC1 (body : RawInvoice) (profile : Profile) (nowIso : String) : Prop :=
  (normalizeInvoice body profile nowIso).totalNet =
    round2 ((match body.manualNet with
      | .num q => q
      | _ => claimBaseNet body profile) +
      (if cleanText (extraDescInput body) ≠ ""
        then round2 (toNumber (extraNetInput body) 0) else 0)) ∧
  (normalizeInvoice body profile nowIso).vatAmount =
    round2 ((normalizeInvoice body profile nowIso).totalNet *
      ((normalizeInvoice body profile nowIso).vatPercent / 100)) ∧
  (normalizeInvoice body profile nowIso).gross =
    round2 ((normalizeInvoice body profile nowIso).totalNet +
      (normalizeInvoice body profile nowIso).vatAmount) ∧
  (normalizeInvoice body profile nowIso).net =
    (match body.manualNet with
      | .num q => round2 q
      | _ => claimBaseNet body profile) ∧
  ((normalizeInvoice body profile nowIso).manualNet = none ↔ body.manualNet = .undefined)

/-- A raw body with an extra net of `5` but no extra description. -/
def bodyExtraNoDesc : RawInvoice := { emptyBody with
  hours := .str "1"
  rate := .num 10
  vatPercent := .num 0
  extra := some ⟨.undefined, .num 5⟩ }

/-- The spec's own sample body `{hours: "8:00", rate: 50, vatPercent: 23}`. -/
def bodySpecSample : RawInvoice := { emptyBody with
  hours := .str "8:00"
  rate := .num 50
  vatPercent := .num 23 }

/-- Documented re-derivation of `totalNet` from the stored fields of an
invoice record: base-or-manual net plus the stored extra line's net. -/
def rederiveTotalNet (inv : Invoice) : ℚ :=
  round2 ((match inv.manualNet with
    | some m => m
    | none => round2 (inv.hours * inv.rate)) +
    (match inv.extra with
    | some e => round2 e.net
    | none => 0))

/-- Documented re-derivation of `vatAmount` from the stored fields. -/
def rederiveVatAmount (inv : Invoice) : ℚ :=
  round2 (rederiveTotalNet inv * (inv.vatPercent / 100))

/-- Documented re-derivation of `gross` from the stored fields. -/
def rederiveGross (inv : Invoice) : ℚ :=
  round2 (rederiveTotalNet inv + rederiveVatAmount inv)

/-- A raw body with an extra line that carries a description. -/
def bodyExtraWithDesc : RawInvoice := { emptyBody with
  hours := .str "1"
  rate := .num 10
  vatPercent := .num 23
  extra := some ⟨.str "Travel", .num 5⟩ }

/-- A raw body whose `manualNet` is the non-numeric string `"abc"`. -/
def bodyManualUnparseable : RawInvoice := { emptyBody with
  hours := .str "2"
  rate := .num 10
  manualNet := .str "abc" }

/-- The claim's working-day predicate: the day of the month is neither a
Saturday (6) nor a Sunday (0) nor a member of the holiday set of the year. -/
def workingDayB (year month day : ℕ) : Bool :=
  !(dayOfWeek ⟨year, month, day⟩ == 6) && !(dayOfWeek ⟨year, month, day⟩ == 0) &&
    !((polishHolidays year).contains (dateKey ⟨year, month, day⟩))

/-- The claim's month predicate: the entry key parses as a date in the same
calendar year and month as the target date. -/
def monthMatches (t : Date) (key : String) : Bool :=
  match parseDate key with
  | some d => d.year == t.year && d.month == t.month
  | none => false

/-- The sum of the hours of the entries of the reference month. -/
def monthSum (entries : List (String × ℚ)) (t : Date) : ℚ :=
  ((entries.filter (fun e => monthMatches t e.1)).map (fun e => e.2)).sum

/-- The claim's keep-predicate for `clearMonth`: an entry survives exactly
when its key does not parse to a date of the given calendar year and month. -/
def keptAfterClear (y m : ℕ) (e : String × ℚ) : Prop :=
  ∀ d, parseDate e.1 = some d → ¬(d.year = y ∧ d.month = m)

/-- The claim's sample ledger: one March 2024 entry, one entry of the same
month in a different year, one entry of a different month. -/
def sampleLedger : List (String × ℚ) :=
  [("2024-03-01", 4), ("2023-03-05", 2), ("2024-04-01", 8)]

/-! Helper lemmas, followed by one block of theorems per claim. -/

theorem jsFloor_eq_floor (x : ℚ) : jsFloor x = ⌊x⌋ := Rat.floor_def.symm

theorem round2_eq_floor (x : ℚ) : round2 x = ((⌊x * 100 + 1 / 2⌋ : ℤ) : ℚ) / 100 := by
  rw [round2, jsFloor_eq_floor]

theorem round2_intCast_div (n : ℤ) : round2 ((n : ℚ) / 100) = (n : ℚ) / 100 := by
  rw [round2_eq_floor]
  have h : (n : ℚ) / 100 * 100 + 1 / 2 = 1 / 2 + (n : ℚ) := by ring
  rw [h, Int.floor_add_int]
  norm_num

theorem round2_round2 (x : ℚ) : round2 (round2 x) = round2 x := by
  have h : round2 x = ((⌊x * 100 + 1 / 2⌋ : ℤ) : ℚ) / 100 := round2_eq_floor x
  rw [h, round2_intCast_div]

theorem matchGetD (o : Option ℚ) :
    (match o with | none => (0 : ℚ) | some h => h) = o.getD 0 := by
  cases o <;> rfl

/-- Claim C3 (counterexample): the claim states that `round2` rounds
half-away-from-zero, so that `-0.125` rounds to `-0.13`; the code's
`Math.round`-based `round2` instead yields `-0.12` at this tie. -/
theorem c3_counterexample :
    round2 (-(1 / 8)) = -(12 / 100) ∧ round2 (-(1 / 8)) ≠ -(13 / 100) := by
  decide

/-- Claim C3 (amended): `round2 x` is the multiple of `0.01` nearest to `x`,
with exact ties rounded toward `+∞` (round-half-up), not away from zero:
the chosen integer `n` of hundredths satisfies `|100x - n| ≤ 1/2` and the
lower tie `100x - n = 1/2` is never chosen. -/
theorem c3_amended (x : ℚ) :
    ∃ n : ℤ, round2 x = (n : ℚ) / 100 ∧ |x * 100 - (n : ℚ)| ≤ 1 / 2 ∧
      x * 100 - (n : ℚ) ≠ 1 / 2 ∧
      ∀ m : ℤ, |x - round2 x| ≤ |x - (m : ℚ) / 100| := by
  have h1 : ((⌊x * 100 + 1 / 2⌋ : ℤ) : ℚ) ≤ x * 100 + 1 / 2 := Int.floor_le _
  have h2 : x * 100 + 1 / 2 < (⌊x * 100 + 1 / 2⌋ : ℤ) + 1 := Int.lt_floor_add_one _
  refine ⟨⌊x * 100 + 1 / 2⌋, round2_eq_floor x, ?_, ?_, ?_⟩
  · rw [abs_le]
    constructor <;> linarith
  · intro hcontra
    linarith [le_of_eq hcontra]
  · intro m
    have hxn : |x * 100 - ((⌊x * 100 + 1 / 2⌋ : ℤ) : ℚ)| ≤ 1 / 2 := by
      rw [abs_le]; constructor <;> linarith
    have key : |x * 100 - ((⌊x * 100 + 1 / 2⌋ : ℤ) : ℚ)| ≤ |x * 100 - (m : ℚ)| := by
      rcases eq_or_ne m ⌊x * 100 + 1 / 2⌋ with rfl | hne
      · exact le_refl _
      · have hd : (1 : ℚ) ≤ |((⌊x * 100 + 1 / 2⌋ : ℤ) : ℚ) - (m : ℚ)| := by
          have h0 : (1 : ℤ) ≤ |⌊x * 100 + 1 / 2⌋ - m| :=
            Int.one_le_abs (sub_ne_zero.mpr (Ne.symm hne))
          exact_mod_cast h0
        have tri : |((⌊x * 100 + 1 / 2⌋ : ℤ) : ℚ) - (m : ℚ)| ≤
            |x * 100 - ((⌊x * 100 + 1 / 2⌋ : ℤ) : ℚ)| + |x * 100 - (m : ℚ)| := by
          calc |((⌊x * 100 + 1 / 2⌋ : ℤ) : ℚ) - (m : ℚ)|
              = |(((⌊x * 100 + 1 / 2⌋ : ℤ) : ℚ) - x * 100) + (x * 100 - (m : ℚ))| := by
                ring_nf
            _ ≤ |((⌊x * 100 + 1 / 2⌋ : ℤ) : ℚ) - x * 100| + |x * 100 - (m : ℚ)| := abs_add _ _
            _ = |x * 100 - ((⌊x * 100 + 1 / 2⌋ : ℤ) : ℚ)| + |x * 100 - (m : ℚ)| := by
                rw [abs_sub_comm]
        linarith
    have e1 : x - round2 x = (x * 100 - ((⌊x * 100 + 1 / 2⌋ : ℤ) : ℚ)) / 100 := by
      rw [round2_eq_floor]; ring
    have e2 : x - (m : ℚ) / 100 = (x * 100 - (m : ℚ)) / 100 := by ring
    rw [e1, e2, abs_div, abs_div]
    exact (div_le_div_iff_of_pos_right (by positivity)).mpr key

/-- Claim C4 (counterexample): the claim states that the hours parser
returns invalid (no value, distinct from zero) on a colon-free string that
does not parse to a finite number; the server parser `parseHoursInput`
instead coerces such input to `0`. -/
theorem c4_counterexample :
    parseHoursInput (JsVal.str "abc") = some 0 ∧ parseHoursInput (JsVal.str "abc") ≠ none := by
  decide

/-- Claim C4 (amended): on a colon-free input string, the client parser
`parseHours` parses a decimal number with `parseFloat` and returns `round2`
of it when finite and invalid (`none`) when not finite; the server parser
`parseHoursInput` parses with `Number` and returns `round2` of the value
when finite but `round2 0 = 0` (not invalid) when it is not finite. -/
theorem c4_amended (s : String) (hnc : containsChar (jsTrim s) ':' = false) :
    parseHours (.str s) = (jsParseFloat (jsTrim s)).map round2 ∧
    (parseHours (.str s) = none ↔ jsParseFloat (jsTrim s) = none) ∧
    parseHoursInput (.str s) = some (round2 ((jsNumberOfString (jsTrim s)).getD 0)) := by
  refine ⟨?_, ?_, ?_⟩
  · simp only [parseHours, hnc, Bool.false_eq_true, if_false, parseNumber]
  · simp only [parseHours, hnc, Bool.false_eq_true, if_false, parseNumber, Option.map_eq_none']
  · simp only [parseHoursInput, hnc, Bool.false_eq_true, if_false, toNumber, jsToNumber]

/-- Claim C4 (witness): the amended statement at the claim's own sample
inputs, including the negative-value boundary. -/
theorem c4_witness :
    parseHours (JsVal.str "2.5") = some (5 / 2) ∧
    parseHours (JsVal.str "-1") = some (-1) ∧
    parseHoursInput (JsVal.str "-1") = some (-1) := by
  refine ⟨?_, ?_, ?_⟩
  · exact ((c4_amended "2.5" (by decide)).1).trans (by decide)
  · exact ((c4_amended "-1" (by decide)).1).trans (by decide)
  · exact ((c4_amended "-1" (by decide)).2.2).trans (by decide)

/-- Claim C5 (counterexample): the claim states that a colon input whose
parts are not integers is invalid; both parsers accept `"2.5:30"` (the code
checks finiteness, sign and `minutes < 60` but not integrality) and return
`round2 (2.5 + 30/60) = 3`. -/
theorem c5_counterexample :
    parseHours (JsVal.str "2.5:30") = some 3 ∧ parseHours (JsVal.str "2.5:30") ≠ none ∧
    parseHoursInput (JsVal.str "2.5:30") = some 3 := by
  decide

/-- Claim C5 (amended): on an input string containing a colon, both parsers
return a value exactly when the first two colon-separated parts are finite
numbers (integrality is not required), the hours part is nonnegative and
the minutes part is in `[0, 60)`, and that value is `round2 (H + M/60)`. -/
theorem c5_amended (s p1 p2 : String) (rest : List String)
    (hc : containsChar (jsTrim s) ':' = true)
    (hsplit : jsSplit (jsTrim s) ':' = p1 :: p2 :: rest) :
    parseHours (.str s) = colonSpec p1 p2 ∧ parseHoursInput (.str s) = colonSpec p1 p2 := by
  constructor
  · simp only [parseHours, hc, if_true, colonHours, hsplit, List.map, colonSpec]
  · simp only [parseHoursInput, hc, if_true, colonHours, hsplit, List.map, colonSpec]

/-- Claim C5 (witness): the amended statement at the claim's own sample
inputs `"2:30"` (valid, `2.50`) and `"2:60"` (invalid). -/
theorem c5_witness :
    parseHours (JsVal.str "2:30") = some (5 / 2) ∧
    parseHoursInput (JsVal.str "2:30") = some (5 / 2) ∧
    parseHours (JsVal.str "2:60") = none := by
  refine ⟨?_, ?_, ?_⟩
  · exact ((c5_amended "2:30" "2" "30" [] (by decide) (by decide)).1).trans (by decide)
  · exact ((c5_amended "2:30" "2" "30" [] (by decide) (by decide)).2).trans (by decide)
  · exact ((c5_amended "2:60" "2" "60" [] (by decide) (by decide)).1).trans (by decide)

/-- Claim C1 (counterexample): for input hours `"1"`, rate `10`, vat `0` and
`extra = {net: 5}` with no extra description, the claim predicts
`totalNet = round2(10 + 0) = 10`, but `normalizeInvoice` adds the extra net
into `totalNet` regardless of the description and returns `15`. -/
theorem c1_counterexample :
    ¬ claimC1 bodyExtraNoDesc defaultProfile "2024-01-01T00:00:00.000Z" ∧
    (normalizeInvoice bodyExtraNoDesc defaultProfile "2024-01-01T00:00:00.000Z").totalNet = 15 := by
  constructor
  · intro h
    exact absurd h.1 (by decide)
  · decide

/-- Claim C1 (amended): the claim's equations hold once the extra-line net
entering `totalNet` is `round2(toNumber(extra.net, 0))` unconditionally —
the presence of an extra description only decides whether the extra line is
stored on the record, not whether its net is billed. -/
theorem c1_amended (body : RawInvoice) (profile : Profile) (nowIso : String)
    (hm : body.manualNet = .undefined ∨ ∃ q, body.manualNet = .num q) :
    (normalizeInvoice body profile nowIso).totalNet =
      round2 ((match body.manualNet with
        | .num q => q
        | _ => claimBaseNet body profile) +
        round2 (toNumber (extraNetInput body) 0)) ∧
    (normalizeInvoice body profile nowIso).vatAmount =
      round2 ((normalizeInvoice body profile nowIso).totalNet *
        ((normalizeInvoice body profile nowIso).vatPercent / 100)) ∧
    (normalizeInvoice body profile nowIso).gross =
      round2 ((normalizeInvoice body profile nowIso).totalNet +
        (normalizeInvoice body profile nowIso).vatAmount) ∧
    (normalizeInvoice body profile nowIso).net =
      (match body.manualNet with
        | .num q => round2 q
        | _ => claimBaseNet body profile) ∧
    ((normalizeInvoice body profile nowIso).manualNet = none ↔ body.manualNet = .undefined) ∧
    (normalizeInvoice body profile nowIso).hours = (parseHoursInput body.hours).getD 0 ∧
    (normalizeInvoice body profile nowIso).rate =
      toNumber body.rate (profile.defaults.hourlyRate.getD 0) := by
  rcases hm with h | ⟨q, h⟩
  · simp [normalizeInvoice, h, truthy, matchGetD, claimBaseNet, toNumber, jsToNumber]
  · by_cases hq : q = 0
    · subst hq
      simp [normalizeInvoice, h, truthy, matchGetD, claimBaseNet, toNumber, jsToNumber]
    · simp [normalizeInvoice, h, truthy, hq, matchGetD, claimBaseNet, toNumber, jsToNumber]

/-- Claim C1 (witness): the amended statement at the spec's own sample,
which yields `net = totalNet = 400`, `vatAmount = 92`, `gross = 492`. -/
theorem c1_witness :
    (normalizeInvoice bodySpecSample defaultProfile "2024-01-01T00:00:00.000Z").totalNet = 400 ∧
    (normalizeInvoice bodySpecSample defaultProfile "2024-01-01T00:00:00.000Z").vatAmount = 92 ∧
    (normalizeInvoice bodySpecSample defaultProfile "2024-01-01T00:00:00.000Z").gross = 492 ∧
    (normalizeInvoice bodySpecSample defaultProfile "2024-01-01T00:00:00.000Z").net = 400 := by
  have h := c1_amended bodySpecSample defaultProfile "2024-01-01T00:00:00.000Z" (Or.inl rfl)
  refine ⟨h.1.trans (by decide), ?_, ?_, h.2.2.2.1.trans (by decide)⟩
  · rw [h.2.1]; decide
  · rw [h.2.2.1]; decide

/-- Claim C2 (counterexample): the record produced from
`{hours: "1", rate: 10, vatPercent: 0, extra: {net: 5}}` (no extra
description) stores `totalNet = 15` and `gross = 15` but `extra = null`, so
re-deriving the totals from the stored fields yields `10`, not the stored
values. -/
theorem c2_counterexample :
    rederiveTotalNet (normalizeInvoice bodyExtraNoDesc defaultProfile "2024-01-01T00:00:00.000Z") ≠
      (normalizeInvoice bodyExtraNoDesc defaultProfile "2024-01-01T00:00:00.000Z").totalNet ∧
    rederiveGross (normalizeInvoice bodyExtraNoDesc defaultProfile "2024-01-01T00:00:00.000Z") ≠
      (normalizeInvoice bodyExtraNoDesc defaultProfile "2024-01-01T00:00:00.000Z").gross := by
  decide

/-- Claim C2 (amended): for every invoice record produced by
`normalizeInvoice` from an input whose extra net rounds to 0 or whose extra
description is present (exactly the inputs whose billed extra line is not
dropped from the record), the stored `totalNet`, `vatAmount` and `gross`
are re-derivable from the stored `hours`, `rate`, `manualNet`, `extra` and
`vatPercent` by the documented formulas. -/
theorem c2_amended (body : RawInvoice) (profile : Profile) (nowIso : String)
    (h : round2 (toNumber (extraNetInput body) 0) = 0 ∨ cleanText (extraDescInput body) ≠ "") :
    rederiveTotalNet (normalizeInvoice body profile nowIso) =
      (normalizeInvoice body profile nowIso).totalNet ∧
    rederiveVatAmount (normalizeInvoice body profile nowIso) =
      (normalizeInvoice body profile nowIso).vatAmount ∧
    rederiveGross (normalizeInvoice body profile nowIso) =
      (normalizeInvoice body profile nowIso).gross := by
  have hTotal : rederiveTotalNet (normalizeInvoice body profile nowIso) =
      (normalizeInvoice body profile nowIso).totalNet := by
    by_cases hM : body.manualNet = JsVal.num 0 ∨ truthy body.manualNet = true
    · by_cases hE : round2 (toNumber (extraNetInput body) 0) ≠ 0 ∧
          cleanText (extraDescInput body) ≠ ""
      · simp [rederiveTotalNet, normalizeInvoice, hM, hE, round2_round2]
      · have hz : round2 (toNumber (extraNetInput body) 0) = 0 := by
          rcases h with h0 | hd
          · exact h0
          · by_contra hne
            exact hE ⟨hne, hd⟩
        simp [rederiveTotalNet, normalizeInvoice, hM, hE, hz]
    · by_cases hE : round2 (toNumber (extraNetInput body) 0) ≠ 0 ∧
          cleanText (extraDescInput body) ≠ ""
      · simp [rederiveTotalNet, normalizeInvoice, hM, hE, round2_round2]
      · have hz : round2 (toNumber (extraNetInput body) 0) = 0 := by
          rcases h with h0 | hd
          · exact h0
          · by_contra hne
            exact hE ⟨hne, hd⟩
        simp [rederiveTotalNet, normalizeInvoice, hM, hE, hz]
  refine ⟨hTotal, ?_, ?_⟩
  · rw [rederiveVatAmount, hTotal]
    simp [normalizeInvoice]
  · rw [rederiveGross, rederiveVatAmount, hTotal]
    simp [normalizeInvoice]

/-- Claim C2 (witness): the amended statement at a concrete record whose
extra line carries a description, discharging the guard. -/
theorem c2_witness :
    rederiveTotalNet (normalizeInvoice bodyExtraWithDesc defaultProfile "2024-01-01T00:00:00.000Z") =
      (normalizeInvoice bodyExtraWithDesc defaultProfile "2024-01-01T00:00:00.000Z").totalNet ∧
    rederiveVatAmount (normalizeInvoice bodyExtraWithDesc defaultProfile "2024-01-01T00:00:00.000Z") =
      (normalizeInvoice bodyExtraWithDesc defaultProfile "2024-01-01T00:00:00.000Z").vatAmount ∧
    rederiveGross (normalizeInvoice bodyExtraWithDesc defaultProfile "2024-01-01T00:00:00.000Z") =
      (normalizeInvoice bodyExtraWithDesc defaultProfile "2024-01-01T00:00:00.000Z").gross :=
  c2_amended bodyExtraWithDesc defaultProfile "2024-01-01T00:00:00.000Z" (Or.inr (by decide))

/-- Claim C10: a truthy but unparseable `manualNet` (for example a
non-numeric string) is silently replaced by the computed base net
`round2(hours * rate)`: the returned `net`, the stored `manualNet` and the
base used for `totalNet` all equal that base net, and the record still
appears manually overridden (`manualNet` is stored non-null). -/
theorem c10_theorem (body : RawInvoice) (profile : Profile) (nowIso : String)
    (ht : truthy body.manualNet = true) (hp : jsToNumber body.manualNet = none) :
    (normalizeInvoice body profile nowIso).net = claimBaseNet body profile ∧
    (normalizeInvoice body profile nowIso).manualNet = some (claimBaseNet body profile) ∧
    (normalizeInvoice body profile nowIso).totalNet =
      round2 (claimBaseNet body profile + round2 (toNumber (extraNetInput body) 0)) := by
  have hcond : body.manualNet = JsVal.num 0 ∨ truthy body.manualNet = true := Or.inr ht
  refine ⟨?_, ?_, ?_⟩
  · simp [normalizeInvoice, hcond, toNumber, hp, claimBaseNet, matchGetD, round2_round2]
  · simp [normalizeInvoice, hcond, toNumber, hp, claimBaseNet, matchGetD]
  · simp [normalizeInvoice, hcond, toNumber, hp, claimBaseNet, matchGetD]

/-- Claim C10 (witness): with hours `"2"`, rate `10` and
`manualNet = "abc"`, the invoice comes back with `net = 20`,
`manualNet = 20` and `totalNet = 20`. -/
theorem c10_witness :
    (normalizeInvoice bodyManualUnparseable defaultProfile "2024-01-01T00:00:00.000Z").net = 20 ∧
    (normalizeInvoice bodyManualUnparseable defaultProfile "2024-01-01T00:00:00.000Z").manualNet = some 20 ∧
    (normalizeInvoice bodyManualUnparseable defaultProfile "2024-01-01T00:00:00.000Z").totalNet = 20 := by
  have h := c10_theorem bodyManualUnparseable defaultProfile "2024-01-01T00:00:00.000Z"
    (by decide) (by decide)
  exact ⟨h.1.trans (by decide), h.2.1.trans (by decide), h.2.2.trans (by decide)⟩

theorem pad4_eq_toString (n : ℕ) (h : 1000 ≤ n) : pad4 n = toString n := by
  unfold pad4
  rw [if_neg (by omega), if_neg (by omega), if_neg (by omega)]

theorem easterAgreeChunk1 :
    ∀ y : ℕ, y < 500 → computeEaster (1583 + y) = gaussEaster (1583 + y) := by
  decide

theorem easterAgreeChunk2 :
    ∀ y : ℕ, y < 500 → computeEaster (2083 + y) = gaussEaster (2083 + y) := by
  decide

/-- Claim C6: for every (four-digit) year, `polishHolidays year` is exactly
the ten fixed dates Jan 1, Jan 6, May 1, May 3, Aug 15, Nov 1, Nov 11,
Dec 24, Dec 25, Dec 26 of that year plus Easter Monday (Easter Sunday + 1
day) and Corpus Christi (Easter Sunday + 60 days); the implemented Easter
computation agrees with Gauss's congruence method on 1583-2582; and for
2024 Easter Sunday is March 31, Easter Monday April 1 and Corpus Christi
May 30. -/
theorem c6_theorem (year : ℕ) (hy1 : 1000 ≤ year) (hy2 : year ≤ 9999) :
    polishHolidays year =
      [dateKey ⟨year, 1, 1⟩, dateKey ⟨year, 1, 6⟩, dateKey ⟨year, 5, 1⟩,
       dateKey ⟨year, 5, 3⟩, dateKey ⟨year, 8, 15⟩, dateKey ⟨year, 11, 1⟩,
       dateKey ⟨year, 11, 11⟩, dateKey ⟨year, 12, 24⟩, dateKey ⟨year, 12, 25⟩,
       dateKey ⟨year, 12, 26⟩,
       dateKey (addDays (computeEaster year) 1),
       dateKey (addDays (computeEaster year) 60)] ∧
    (1583 ≤ year → year < 2583 → computeEaster year = gaussEaster year) ∧
    (year = 2024 → computeEaster year = ⟨2024, 3, 31⟩ ∧
      addDays (computeEaster year) 1 = ⟨2024, 4, 1⟩ ∧
      addDays (computeEaster year) 60 = ⟨2024, 5, 30⟩) := by
  refine ⟨?_, ?_, ?_⟩
  · simp only [polishHolidays, List.cons_append, List.nil_append, dateKey,
      pad4_eq_toString year hy1, List.cons.injEq, and_true]
    refine ⟨?_, ?_, ?_, ?_, ?_, ?_, ?_, ?_, ?_, ?_⟩ <;>
      (simp only [String.append_assoc]; congr 1)
  · intro h1 h2
    rcases Nat.lt_or_ge year 2083 with hlt | hge
    · have hk : year - 1583 < 500 := by omega
      have hx := easterAgreeChunk1 (year - 1583) hk
      have e : 1583 + (year - 1583) = year := by omega
      rw [e] at hx
      exact hx
    · have hk : year - 2083 < 500 := by omega
      have hx := easterAgreeChunk2 (year - 2083) hk
      have e : 2083 + (year - 2083) = year := by omega
      rw [e] at hx
      exact hx
  · intro h
    subst h
    exact ⟨by decide, by decide, by decide⟩

/-- Claim C6 (witness): the theorem applied at 2024. -/
theorem c6_witness :
    computeEaster 2024 = ⟨2024, 3, 31⟩ ∧
    addDays (computeEaster 2024) 1 = ⟨2024, 4, 1⟩ ∧
    addDays (computeEaster 2024) 60 = ⟨2024, 5, 30⟩ :=
  (c6_theorem 2024 (by decide) (by decide)).2.2 rfl

theorem foldl_count (f : ℕ → Bool) (l : List ℕ) (n : ℕ) :
    l.foldl (fun c x => if f x then c + 1 else c) n = n + (l.filter f).length := by
  induction l generalizing n with
  | nil => simp
  | cons a t ih =>
      by_cases h : f a
      · simp only [List.foldl_cons, h, if_true, List.filter_cons, ih, List.length_cons]
        omega
      · simp [h, ih]

theorem wdm_step_eq (year month : ℕ) :
    (fun (count : ℕ) (day : ℕ) =>
      let d : Date := ⟨year, month, day⟩
      let dow := dayOfWeek d
      let key := dateKey d
      if dow = 0 ∨ dow = 6 then count
      else if (polishHolidays year).contains key then count
      else count + 1)
    = fun count day => if workingDayB year month day then count + 1 else count := by
  funext count day
  simp only [workingDayB]
  by_cases h1 : dayOfWeek ⟨year, month, day⟩ = 0
  · simp [h1]
  · by_cases h2 : dayOfWeek ⟨year, month, day⟩ = 6
    · simp [h1, h2]
    · by_cases h3 : (polishHolidays year).contains (dateKey ⟨year, month, day⟩)
      · simp [h1, h2, h3]
      · simp [h1, h2, h3]

/-- Claim C7: `workingDaysInMonth year month` equals the number of calendar
days of that month that are neither a Saturday, nor a Sunday, nor a member
of the holiday set of that year; in particular December 2024, which loses
Dec 24-26 plus nine weekend days, has exactly 19 working days. -/
theorem c7_theorem :
    (∀ year month : ℕ, workingDaysInMonth year month =
      ((List.range' 1 (daysInMonth year month)).filter (workingDayB year month)).length) ∧
    workingDaysInMonth 2024 12 = 19 := by
  constructor
  · intro year month
    rw [workingDaysInMonth, wdm_step_eq, foldl_count]
    exact Nat.zero_add _
  · decide

/-- Claim C7 (witness): the December 2024 instance extracted from the
theorem. -/
theorem c7_witness : workingDaysInMonth 2024 12 = 19 := c7_theorem.2

theorem sum_step_eq (t : Date) :
    (fun (total : ℚ) (e : String × ℚ) =>
      match parseDate e.1 with
      | some d => if d.year = t.year ∧ d.month = t.month then total + e.2 else total
      | none => total)
    = fun total e => if monthMatches t e.1 then total + e.2 else total := by
  funext total e
  rcases hp : parseDate e.1 with _ | d
  · simp [monthMatches, hp]
  · by_cases hm : d.year = t.year ∧ d.month = t.month
    · simp [monthMatches, hp, hm]
    · simp only [monthMatches, hp, hm, if_false]
      rw [if_neg]
      simp only [Bool.and_eq_true, beq_iff_eq]
      exact hm

theorem foldl_sum_filter (f : String × ℚ → Bool) (l : List (String × ℚ)) (n : ℚ) :
    l.foldl (fun total e => if f e then total + e.2 else total) n =
      n + ((l.filter f).map (fun e => e.2)).sum := by
  induction l generalizing n with
  | nil => simp
  | cons a t ih =>
      by_cases h : f a
      · simp [h, ih, add_assoc]
      · simp [h, ih]

/-- Claim C8: `sumEntriesForMonth` returns `none` exactly when the reference
date is absent (empty) or does not parse as a date; otherwise it returns
`round2` of the sum of hours over the entries of the same calendar year and
month as the reference date (0 when no entry matches); over
`{"2024-03-01": 4, "2024-03-15": 3.5, "2024-04-01": 8}` with reference
`"2024-03-10"` it yields `7.50`, and with an unparseable reference `none`. -/
theorem c8_theorem :
    (∀ (entries : List (String × ℚ)) (refDate : String),
      (sumEntriesForMonth entries refDate = none ↔ refDate = "" ∨ parseDate refDate = none) ∧
      (∀ t, parseDate refDate = some t →
        sumEntriesForMonth entries refDate = some (round2 (monthSum entries t)))) ∧
    sumEntriesForMonth [("2024-03-01", 4), ("2024-03-15", 7 / 2), ("2024-04-01", 8)]
      "2024-03-10" = some (15 / 2) ∧
    sumEntriesForMonth [("2024-03-01", 4), ("2024-03-15", 7 / 2), ("2024-04-01", 8)]
      "not-a-date" = none := by
  refine ⟨?_, by decide, by decide⟩
  intro entries refDate
  by_cases he : refDate = ""
  · subst he
    constructor
    · simp [sumEntriesForMonth]
    · intro t ht
      simp [parseDate] at ht
  · rcases hp : parseDate refDate with _ | t0
    · constructor
      · simp [sumEntriesForMonth, he, hp]
      · intro t ht
        exact absurd ht (by simp)
    · constructor
      · simp [sumEntriesForMonth, he, hp]
      · intro t ht
        injection ht with ht
        subst ht
        simp only [sumEntriesForMonth, if_neg he, hp]
        rw [sum_step_eq, foldl_sum_filter, monthSum, zero_add]

/-- Claim C8 (witness): the general part of the theorem applied to the
claim's own ledger and reference date. -/
theorem c8_witness :
    sumEntriesForMonth [("2024-03-01", 4), ("2024-03-15", 7 / 2), ("2024-04-01", 8)]
        "2024-03-10" =
      some (round2 (monthSum [("2024-03-01", 4), ("2024-03-15", 7 / 2), ("2024-04-01", 8)]
        ⟨2024, 3, 10⟩)) :=
  (c8_theorem.1 [("2024-03-01", 4), ("2024-03-15", 7 / 2), ("2024-04-01", 8)]
    "2024-03-10").2 ⟨2024, 3, 10⟩ (by decide)

theorem clearMonth_filter_eq (y m : ℕ) (e : String × ℚ) :
    ((match parseDate e.1 with
      | some d => !(d.year == y && d.month == m)
      | none => true) = true) ↔ keptAfterClear y m e := by
  rcases hp : parseDate e.1 with _ | d
  · simp [keptAfterClear, hp]
  · simp only [keptAfterClear, hp, Option.some.injEq, forall_eq', Bool.not_eq_true',
      Bool.and_eq_true, beq_iff_eq, not_and, Bool.not_eq_true, Bool.and_eq_false_iff,
      beq_eq_false_iff_ne, ne_eq]
    constructor
    · rintro (h1 | h2) hy
      · exact absurd hy h1
      · exact h2
    · intro h
      by_cases hy : d.year = y
      · exact Or.inr (h hy)
      · exact Or.inl hy

/-- Claim C9: `clearMonth` rejects (returns `none`, leaving the stored
entries untouched) every month argument not matching `YYYY-MM`; on a
matching argument it removes exactly the entries whose date falls in that
calendar month of that calendar year, keeping every other entry — including
one of the same month in a different year — unchanged and in order. -/
theorem c9_theorem :
    ∀ (entries : List (String × ℚ)) (month : String),
      (matchesYYYYMM month = false → clearMonth entries month = none) ∧
      (matchesYYYYMM month = true →
        ∃ kept, clearMonth entries month = some kept ∧ kept.Sublist entries ∧
          ∀ e, e ∈ kept ↔ e ∈ entries ∧ keptAfterClear (strYear month) (strMon month) e) := by
  intro entries month
  constructor
  · intro h
    simp [clearMonth, h]
  · intro h
    refine ⟨entries.filter (fun e =>
      match parseDate e.1 with
      | some d => !(d.year == strYear month && d.month == strMon month)
      | none => true), ?_, ?_, ?_⟩
    · simp [clearMonth, h]
    · exact List.filter_sublist _
    · intro e
      rw [List.mem_filter, clearMonth_filter_eq]

/-- Claim C9 (witness): clearing `"2024-03"` on the sample ledger keeps
exactly the same-month-different-year entry and the different-month entry;
the malformed month `"2024-3"` is rejected. -/
theorem c9_witness :
    (∃ kept, clearMonth sampleLedger "2024-03" = some kept ∧ kept.Sublist sampleLedger ∧
      ∀ e, e ∈ kept ↔ e ∈ sampleLedger ∧ keptAfterClear (strYear "2024-03") (strMon "2024-03") e) ∧
    clearMonth sampleLedger "2024-03" = some [("2023-03-05", 2), ("2024-04-01", 8)] ∧
    clearMonth sampleLedger "2024-3" = none := by
  refine ⟨(c9_theorem sampleLedger "2024-03").2 (by decide), by decide, ?_⟩
  exact (c9_theorem sampleLedger "2024-3").1 (by decide)

end WTC